import Mathlib

/-!
# Verification of the positional data engine of `typhonjs-fvtt-svelte`

Shallow embedding of the position store found in
`src/src/application/position/Position.js` together with the newer
`AnimationManager` (second half of `src/unnamed/part_001`).

Modelling conventions:

* A JavaScript value stored in a positional field is a `JVal`: a finite
  number (`num`, as a rational), `NaN` (`nan`, which has JS type `number`
  but is not finite and is strictly unequal to itself), `null`, a string
  (`str`, used for the `'auto'` sentinel and for `transformOrigin`), or
  `undefined` (`undef`, an absent property).
* `PositionData` is a total map from the seventeen positional keys to
  `JVal`.  Input objects to `set` use `undef` for absent properties.
* DOM state that `set` reads (connected target element, inline style
  emptiness, `offsetWidth` / `offsetHeight`, the style-cache state,
  validators, the initial-position helper) is collected in `SetEnv`.
  `el = none` models "no connected target element".
* Validators are modelled as functions from the proposed position to an
  optional adjusted position (`none` = veto), matching the control flow
  of the validator loop in `Position.#updatePosition`; the extra fields
  of the validation-data record do not affect that control flow and are
  folded into the function closure.
* The `Transforms` helper class and the transform-string composition are
  not under `src/`; no claim below depends on the composed CSS string, so
  style writes are recorded symbolically (`StyleWrite`).
-/

/-- A JavaScript value held in a positional field: a finite number, `NaN`,
`null`, a string, `undefined`, or the two infinities (`inf` is `Infinity`,
`ninf` is `-Infinity`; both have JS type `number` but are not finite). -/
inductive JVal where
  | num (x : ℚ)
  | nan
  | null
  | str (s : String)
  | undef
  | inf
  | ninf
deriving DecidableEq, Repr

/-- JS `typeof v === 'number'` (`NaN` and `±Infinity` are numbers). -/
def typeofNumber : JVal → Bool
  | .num _ => true
  | .nan => true
  | .inf => true
  | .ninf => true
  | _ => false

/-- JS `Number.isFinite(v)`. -/
def isFiniteJ : JVal → Bool
  | .num _ => true
  | _ => false

/-- JS `typeof v === 'string'`. -/
def typeofString : JVal → Bool
  | .str _ => true
  | _ => false

/-- JS `Math.round` on a finite number: round half toward positive infinity. -/
def jround (x : ℚ) : ℚ := ((⌊x + 1/2⌋ : ℤ) : ℚ)

/-- JS `Math.round` applied to a value of type `number` (guarded call sites
only apply this under a `typeof v === 'number'` check; `Math.round(NaN)` is
`NaN` and `Math.round(±Infinity)` is `±Infinity`). -/
def jroundJ : JVal → JVal
  | .num x => .num (jround x)
  | .inf => .inf
  | .ninf => .ninf
  | _ => .nan

/-- JS `Math.max(0, Math.min(v, 1000))` on a value of type `number`
(`NaN` propagates; `Math.min(Infinity, 1000) = 1000` and
`Math.max(0, -Infinity) = 0`, so the infinities clamp to the bounds). -/
def jclampJ : JVal → JVal
  | .num x => .num (max 0 (min x 1000))
  | .inf => .num 1000
  | .ninf => .num 0
  | _ => .nan

/-- JS strict equality `===` on positional values: `NaN` is unequal to
everything including itself, while `Infinity === Infinity` holds. -/
def jEq : JVal → JVal → Bool
  | .num x, .num y => x = y
  | .null, .null => true
  | .str a, .str b => a = b
  | .undef, .undef => true
  | .inf, .inf => true
  | .ninf, .ninf => true
  | _, _ => false

/-- The valid transform origins (`constants.transformOrigins`). -/
def transformOrigins : List String :=
  ["top left", "top center", "top right", "center left", "center",
   "center right", "bottom left", "bottom center", "bottom right"]

/-- JS `constants.transformOrigins.includes(v)` (strict comparison, so a
non-string never matches). -/
def originIncludes : JVal → Bool
  | .str s => transformOrigins.contains s
  | _ => false

/-- The seventeen positional fields of `PositionData`. -/
inductive PKey where
  | left | top | width | height
  | maxWidth | maxHeight | minWidth | minHeight
  | rotateX | rotateY | rotateZ | scale
  | translateX | translateY | translateZ
  | transformOrigin | zIndex
deriving DecidableEq, Repr

/-- All seventeen keys, for decidable whole-record predicates. -/
def PKey.all : List PKey :=
  [.left, .top, .width, .height, .maxWidth, .maxHeight, .minWidth, .minHeight,
   .rotateX, .rotateY, .rotateZ, .scale, .translateX, .translateY, .translateZ,
   .transformOrigin, .zIndex]

/-- Canonical position data: a total assignment of values to the fields. -/
def PositionData := PKey → JVal

/-- Modelled from the spec: `PositionData.js` is not under `src/`; per the
data-model section every field defaults to `null` except `transformOrigin`,
which defaults to `'top left'`. -/
def PositionData.init : PositionData := fun k =>
  match k with
  | .transformOrigin => JVal.str "top left"
  | _ => JVal.null

/-- The all-`undefined` object, used as the base for partial `set` inputs. -/
def inputEmpty : PositionData := fun _ => JVal.undef

/-- Modelled from the spec: `PositionChangeSet.js` is not under `src/`; per
the data-model section it is a boolean per field (`left, top, width, height,
maxWidth, maxHeight, minWidth, minHeight, zIndex, transform,
transformOrigin`) with an aggregate "has any change" query and a
`set(boolean)` that assigns every flag. -/
structure ChangeSet where
  left : Bool
  top : Bool
  width : Bool
  height : Bool
  maxWidth : Bool
  maxHeight : Bool
  minWidth : Bool
  minHeight : Bool
  zIndex : Bool
  transform : Bool
  transformOrigin : Bool
deriving DecidableEq, Repr

/-- `PositionChangeSet.set(v)`: assign every flag. -/
def ChangeSet.all (v : Bool) : ChangeSet := ⟨v, v, v, v, v, v, v, v, v, v, v⟩

/-- `PositionChangeSet.hasChange()`: any flag set. -/
def ChangeSet.hasChange (c : ChangeSet) : Bool :=
  c.left || c.top || c.width || c.height || c.maxWidth || c.maxHeight ||
  c.minWidth || c.minHeight || c.zIndex || c.transform || c.transformOrigin

/-- DOM state of the connected target element read by `Position.set`. -/
structure ElEnv where
  styleLeftEmpty : Bool
  styleTopEmpty : Bool
  styleWidthEmpty : Bool
  styleHeightEmpty : Bool
  offsetWidth : ℚ
  offsetHeight : ℚ

/-- Environment of one `Position.set` call. -/
structure SetEnv where
  /-- `parent.options.positionable` gate passes (also true when the parent
  does not declare the option). -/
  positionable : Bool
  /-- The connected target element, when present. -/
  el : Option ElEnv
  /-- `StyleCache.hasData(el)` for the target element. -/
  styleCacheHasData : Bool
  /-- The validator pipeline, in order. -/
  validators : List (PositionData → Option PositionData)
  /-- `options.initialHelper.getLeft`, taking the computed width. -/
  getLeft : Option (ℚ → ℚ)
  /-- `options.initialHelper.getTop`, taking the computed height. -/
  getTop : Option (ℚ → ℚ)

/-- Per-field guard of the assignment blocks in the body of `Position.set`
(source lines 1006-1144). -/
def bodyGuard : PKey → JVal → Bool
  | .left, q => typeofNumber q
  | .top, q => typeofNumber q
  | .zIndex, q => typeofNumber q
  | .maxWidth, q => isFiniteJ q || q == .null
  | .maxHeight, q => isFiniteJ q || q == .null
  | .minWidth, q => isFiniteJ q || q == .null
  | .minHeight, q => isFiniteJ q || q == .null
  | .rotateX, q => typeofNumber q || q == .null
  | .rotateY, q => typeofNumber q || q == .null
  | .rotateZ, q => typeofNumber q || q == .null
  | .translateX, q => typeofNumber q || q == .null
  | .translateY, q => typeofNumber q || q == .null
  | .translateZ, q => typeofNumber q || q == .null
  | .scale, q => typeofNumber q || q == .null
  | .transformOrigin, q => typeofString q || q == .null
  | .width, q => typeofNumber q || q == .str "auto" || q == .null
  | .height, q => typeofNumber q || q == .str "auto" || q == .null

/-- Per-field normalisation applied by the body of `Position.set` under its
guard (rounding, clamping, origin filtering). -/
def bodyNorm : PKey → JVal → JVal
  | .left, q => jroundJ q
  | .top, q => jroundJ q
  | .zIndex, q => jroundJ q
  | .maxWidth, q => if isFiniteJ q then jroundJ q else .null
  | .maxHeight, q => if isFiniteJ q then jroundJ q else .null
  | .minWidth, q => if isFiniteJ q then jroundJ q else .null
  | .minHeight, q => if isFiniteJ q then jroundJ q else .null
  | .rotateX, q => q
  | .rotateY, q => q
  | .rotateZ, q => q
  | .translateX, q => q
  | .translateY, q => q
  | .translateZ, q => q
  | .scale, q => if typeofNumber q then jclampJ q else .null
  | .transformOrigin, q => if originIncludes q then q else .null
  | .width, q => if typeofNumber q then jroundJ q else q
  | .height, q => if typeofNumber q then jroundJ q else q

/-- New canonical value of field `k` after the body of `Position.set`
processes proposed value `q` against current value `cur`. -/
def bodyAt (k : PKey) (cur q : JVal) : JVal :=
  if bodyGuard k q then bodyNorm k q else cur

/-- Whether the body of `Position.set` flags field `k` as changed: the guard
passes and the normalised proposal is strictly unequal (`!==`) to the current
value. -/
def bodyDelta (k : PKey) (cur q : JVal) : Bool :=
  bodyGuard k q && !jEq cur (bodyNorm k q)

/-- The field comparisons and mutations of `Position.set` (source lines
1006-1144): each block normalises the proposed value, compares with strict
inequality and flags the corresponding change-set bit.  The seven transform
fields share the single `transform` bit. -/
def applyBody (d : PositionData) (cs : ChangeSet) (q : PositionData) :
    PositionData × ChangeSet :=
  (fun k => bodyAt k (d k) (q k),
   { left := cs.left || bodyDelta .left (d .left) (q .left)
     top := cs.top || bodyDelta .top (d .top) (q .top)
     width := cs.width || bodyDelta .width (d .width) (q .width)
     height := cs.height || bodyDelta .height (d .height) (q .height)
     maxWidth := cs.maxWidth || bodyDelta .maxWidth (d .maxWidth) (q .maxWidth)
     maxHeight := cs.maxHeight || bodyDelta .maxHeight (d .maxHeight) (q .maxHeight)
     minWidth := cs.minWidth || bodyDelta .minWidth (d .minWidth) (q .minWidth)
     minHeight := cs.minHeight || bodyDelta .minHeight (d .minHeight) (q .minHeight)
     zIndex := cs.zIndex || bodyDelta .zIndex (d .zIndex) (q .zIndex)
     transform := cs.transform ||
       bodyDelta .rotateX (d .rotateX) (q .rotateX) ||
       bodyDelta .rotateY (d .rotateY) (q .rotateY) ||
       bodyDelta .rotateZ (d .rotateZ) (q .rotateZ) ||
       bodyDelta .scale (d .scale) (q .scale) ||
       bodyDelta .translateX (d .translateX) (q .translateX) ||
       bodyDelta .translateY (d .translateY) (q .translateY) ||
       bodyDelta .translateZ (d .translateZ) (q .translateZ)
     transformOrigin := cs.transformOrigin ||
       bodyDelta .transformOrigin (d .transformOrigin) (q .transformOrigin) })

/-- The finite value of `v`, or the fallback (used for
`Number.isFinite(x) ? x : el.offsetWidth` style expressions). -/
def finiteOr (v : JVal) (d : ℚ) : ℚ :=
  match v with
  | .num x => x
  | _ => d

/-- The pre-validation computation of `Position.#updatePosition` (source
lines 1354-1470): derive effective width / height honouring the `'auto'`
sentinel, default `left` / `top` through the initial-position helper, and
normalise the remaining fields, all into a copy of the canonical data. -/
def preValidate (env : SetEnv) (e : ElEnv) (st q : PositionData) : PositionData :=
  let cw := st .width
  let wRes : JVal × ℚ :=
    if e.styleWidthEmpty || q .width != .undef then
      if q .width == .str "auto" || (cw == .str "auto" && q .width != .null) then
        (.str "auto", e.offsetWidth)
      else
        match (if isFiniteJ (q .width) then q .width else cw) with
        | .num x => (.num (jround x), jround x)
        | _ => (.num e.offsetWidth, e.offsetWidth)
    else (cw, finiteOr cw e.offsetWidth)
  let ch := st .height
  let hRes : JVal × ℚ :=
    if e.styleHeightEmpty || q .height != .undef then
      if q .height == .str "auto" || (ch == .str "auto" && q .height != .null) then
        (.str "auto", e.offsetHeight)
      else
        match (if isFiniteJ (q .height) then q .height else ch) with
        | .num x => (.num (jround x), jround x)
        | _ => (.num e.offsetHeight, e.offsetHeight)
    else (ch, finiteOr ch e.offsetHeight)
  let lRes : JVal :=
    if e.styleLeftEmpty || isFiniteJ (q .left) then
      if isFiniteJ (q .left) then q .left
      else
        match env.getLeft with
        | some f => .num (f wRes.2)
        | none => .num 0
    else st .left
  let tRes : JVal :=
    if e.styleTopEmpty || isFiniteJ (q .top) then
      if isFiniteJ (q .top) then q .top
      else
        match env.getTop with
        | some f => .num (f hRes.2)
        | none => .num 0
    else st .top
  fun k =>
    match k with
    | .width => wRes.1
    | .height => hRes.1
    | .left => lRes
    | .top => tRes
    | .maxWidth =>
        if isFiniteJ (q .maxWidth) || q .maxWidth == .null then
          if isFiniteJ (q .maxWidth) then jroundJ (q .maxWidth) else .null
        else st .maxWidth
    | .maxHeight =>
        if isFiniteJ (q .maxHeight) || q .maxHeight == .null then
          if isFiniteJ (q .maxHeight) then jroundJ (q .maxHeight) else .null
        else st .maxHeight
    | .minWidth =>
        if isFiniteJ (q .minWidth) || q .minWidth == .null then
          if isFiniteJ (q .minWidth) then jroundJ (q .minWidth) else .null
        else st .minWidth
    | .minHeight =>
        if isFiniteJ (q .minHeight) || q .minHeight == .null then
          if isFiniteJ (q .minHeight) then jroundJ (q .minHeight) else .null
        else st .minHeight
    | .rotateX =>
        if typeofNumber (q .rotateX) || q .rotateX == .null then q .rotateX
        else st .rotateX
    | .rotateY =>
        if typeofNumber (q .rotateY) || q .rotateY == .null then q .rotateY
        else st .rotateY
    | .rotateZ =>
        if typeofNumber (q .rotateZ) || q .rotateZ == .null then q .rotateZ
        else st .rotateZ
    | .translateX =>
        if typeofNumber (q .translateX) || q .translateX == .null then q .translateX
        else st .translateX
    | .translateY =>
        if typeofNumber (q .translateY) || q .translateY == .null then q .translateY
        else st .translateY
    | .translateZ =>
        if typeofNumber (q .translateZ) || q .translateZ == .null then q .translateZ
        else st .translateZ
    | .scale =>
        if typeofNumber (q .scale) || q .scale == .null then
          if typeofNumber (q .scale) then jclampJ (q .scale) else .null
        else st .scale
    | .transformOrigin =>
        if typeofString (q .transformOrigin) || q .transformOrigin == .null then
          if originIncludes (q .transformOrigin) then q .transformOrigin else .null
        else st .transformOrigin
    | .zIndex =>
        if typeofNumber (q .zIndex) || q .zIndex == .null then
          if typeofNumber (q .zIndex) then jroundJ (q .zIndex) else q .zIndex
        else st .zIndex

/-- The validator loop of `Position.#updatePosition`: each validator receives
the previous output and may veto the whole update by returning `null`. -/
def runPipeline : List (PositionData → Option PositionData) → PositionData →
    Option PositionData
  | [], cur => some cur
  | v :: vs, cur =>
      match v cur with
      | none => none
      | some cur2 => runPipeline vs cur2

/-- `Position.#updatePosition`: pre-validation computation followed by the
validator pipeline; `none` means a validator cancelled the update. -/
def updatePositionValidated (env : SetEnv) (e : ElEnv) (st q : PositionData) :
    Option PositionData :=
  runPipeline env.validators (preValidate env e st q)

/-- JS `Set.add`: append the key when not already present (a JS `Set` never
holds duplicates, so these lists stay duplicate-free). -/
def setAdd (l : List PKey) (k : PKey) : List PKey :=
  if k ∈ l then l else l ++ [k]

/-- JS `Set.delete`: remove the key (on a duplicate-free list this is the
same as erasing the single occurrence). -/
def setDelete (l : List PKey) (k : PKey) : List PKey :=
  l.filter fun x => x ≠ k

/-- Mutable per-instance state of a `Position`. -/
structure PosState where
  data : PositionData
  changeSet : ChangeSet
  /-- Default snapshot, captured lazily on the first `set` against a
  connected element. -/
  defaultData : Option PositionData
  /-- The currently-animating key set (a JS `Set` of field names). -/
  animKeys : List PKey
  /-- The named snapshot map (`Map` modelled as an association list whose
  head shadows older entries, matching `Map.set` / `Map.get`). -/
  dataSaved : List (String × PositionData)

/-- Result of one `Position.set` call. -/
structure SetOutcome where
  st : PosState
  /-- Whether the bound DOM-sync callback was registered with
  `UpdateElementManager` (and hence an element-update promise created). -/
  registeredUpdate : Bool
  /-- Whether `#updateSubscribers` notified subscribers during this call
  (only the element-less branch notifies synchronously). -/
  notified : Bool

/-- `Position.set` (source lines 969-1161).  With a connected element the
proposal runs through `#updatePosition` (veto aborts with no mutation), the
body mutates canonical data and flags change bits, the default snapshot is
captured on first need and the DOM-sync callback is registered.  Without an
element the body runs directly and `#updateSubscribers` fires synchronously,
clearing the change set when it reports a change. -/
def Position.set (env : SetEnv) (st : PosState) (q : PositionData) : SetOutcome :=
  if !env.positionable then ⟨st, false, false⟩
  else
    match env.el with
    | some e =>
        let cs0 := if env.styleCacheHasData then st.changeSet else ChangeSet.all true
        match updatePositionValidated env e st.data q with
        | none => ⟨{ st with changeSet := cs0 }, false, false⟩
        | some q2 =>
            let r := applyBody st.data cs0 q2
            ⟨{ st with
                data := r.1
                changeSet := r.2
                defaultData :=
                  match st.defaultData with
                  | some x => some x
                  | none => some r.1 }, true, false⟩
    | none =>
        let r := applyBody st.data st.changeSet q
        let doNotify := r.2.hasChange
        ⟨{ st with
            data := r.1
            changeSet := if doNotify then ChangeSet.all false else r.2 }, false, doNotify⟩

/-- A DOM inline-style write performed by `Position.#updateElementNew`.  The
`transform` write composes `left` / `top` and the transform fields through
`Transforms.getCSSOrtho`; the composed string is not modelled (the
`Transforms` class is not under `src/`), only that a write occurs and which
data it reads. -/
inductive StyleWrite where
  | zIndex (v : JVal)
  | width (v : JVal)
  | height (v : JVal)
  | origin (v : JVal)
  | transform (leftV topV : JVal)
deriving DecidableEq, Repr

/-- `Position.#updateElementNew` (source lines 1252-1307): skip when the
element is disconnected; otherwise write only the styles whose change bit is
set, then run `#updateSubscribers`, which early-outs when the change set
reports no change and clears it otherwise.  Returns the performed style
writes, whether subscribers were notified, and the resulting change set. -/
def updateElementNew (connected : Bool) (d : PositionData) (cs : ChangeSet) :
    List StyleWrite × Bool × ChangeSet :=
  if !connected then ([], false, cs)
  else
    let ws :=
      (if cs.zIndex then [StyleWrite.zIndex (d .zIndex)] else []) ++
      (if cs.width then [StyleWrite.width (d .width)] else []) ++
      (if cs.height then [StyleWrite.height (d .height)] else []) ++
      (if cs.transformOrigin then [StyleWrite.origin (d .transformOrigin)] else []) ++
      (if cs.left || cs.top || cs.transform then
        [StyleWrite.transform (d .left) (d .top)] else [])
    (ws, cs.hasChange, if cs.hasChange then ChangeSet.all false else cs)

/-- Guard `Number.isFinite(v) || v === null` used by the constructor. -/
def ctorGuardFin (v : JVal) : Bool := isFiniteJ v || v == .null

/-- Canonical data seeded by the `Position` constructor from its options
(source lines 192-286): `left` / `top` / `width` / `height` / min- and
max-constraints / `zIndex` are rounded when numeric, width / height also
accept `'auto'`, the rotation / translation / `scale` fields are stored raw
(note: `scale` is not clamped here), and `transformOrigin` must be a valid
origin string.  Fields whose option fails its guard keep the
`PositionData.init` default. -/
def Position.mkData (opts : PositionData) : PositionData := fun k =>
  match k with
  | .height =>
      if isFiniteJ (opts .height) || opts .height == .str "auto" || opts .height == .null then
        if typeofNumber (opts .height) then jroundJ (opts .height) else opts .height
      else PositionData.init k
  | .width =>
      if isFiniteJ (opts .width) || opts .width == .str "auto" || opts .width == .null then
        if typeofNumber (opts .width) then jroundJ (opts .width) else opts .width
      else PositionData.init k
  | .left =>
      if ctorGuardFin (opts .left) then
        if typeofNumber (opts .left) then jroundJ (opts .left) else opts .left
      else PositionData.init k
  | .top =>
      if ctorGuardFin (opts .top) then
        if typeofNumber (opts .top) then jroundJ (opts .top) else opts .top
      else PositionData.init k
  | .maxWidth =>
      if ctorGuardFin (opts .maxWidth) then
        if typeofNumber (opts .maxWidth) then jroundJ (opts .maxWidth) else opts .maxWidth
      else PositionData.init k
  | .maxHeight =>
      if ctorGuardFin (opts .maxHeight) then
        if typeofNumber (opts .maxHeight) then jroundJ (opts .maxHeight) else opts .maxHeight
      else PositionData.init k
  | .minWidth =>
      if ctorGuardFin (opts .minWidth) then
        if typeofNumber (opts .minWidth) then jroundJ (opts .minWidth) else opts .minWidth
      else PositionData.init k
  | .minHeight =>
      if ctorGuardFin (opts .minHeight) then
        if typeofNumber (opts .minHeight) then jroundJ (opts .minHeight) else opts .minHeight
      else PositionData.init k
  | .zIndex =>
      if ctorGuardFin (opts .zIndex) then
        if typeofNumber (opts .zIndex) then jroundJ (opts .zIndex) else opts .zIndex
      else PositionData.init k
  | .rotateX => if ctorGuardFin (opts .rotateX) then opts .rotateX else PositionData.init k
  | .rotateY => if ctorGuardFin (opts .rotateY) then opts .rotateY else PositionData.init k
  | .rotateZ => if ctorGuardFin (opts .rotateZ) then opts .rotateZ else PositionData.init k
  | .translateX => if ctorGuardFin (opts .translateX) then opts .translateX else PositionData.init k
  | .translateY => if ctorGuardFin (opts .translateY) then opts .translateY else PositionData.init k
  | .translateZ => if ctorGuardFin (opts .translateZ) then opts .translateZ else PositionData.init k
  | .scale => if ctorGuardFin (opts .scale) then opts .scale else PositionData.init k
  | .transformOrigin =>
      if typeofString (opts .transformOrigin) && originIncludes (opts .transformOrigin) then
        opts .transformOrigin
      else PositionData.init k

/-- `Position.save` (source lines 935-944): store a fresh copy of the current
canonical data under the name (extra payload irrelevant here). -/
def Position.save (st : PosState) (name : String) : PosState :=
  { st with dataSaved := (name, st.data) :: st.dataSaved }

/-- `Position.getSave` (source lines 771-776): look up a stored snapshot. -/
def Position.getSave (st : PosState) (name : String) : Option PositionData :=
  st.dataSaved.lookup name

/-- `Position.reset` (source lines 797-821): fail when no default snapshot
was captured or a field is animating; otherwise copy the default, optionally
keep the current `zIndex`, drop currently-animating keys from the copy, and
invoke `set` with it when requested.  (`Transforms.reset` and the parent
minimize interaction touch no canonical data and are not modelled.) -/
def Position.reset (env : SetEnv) (st : PosState) (keepZIndex invokeSet : Bool) :
    Bool × PosState :=
  match st.defaultData with
  | none => (false, st)
  | some dd =>
      if st.animKeys ≠ [] then (false, st)
      else
        let z := st.data .zIndex
        let d1 := if keepZIndex then Function.update dd .zIndex z else dd
        let d2 := st.animKeys.foldl (fun q k => Function.update q k JVal.undef) d1
        let st2 := if invokeSet then (Position.set env st d2).st else st
        (true, st2)

/-- Normalisation of `null` initial / destination entries in
`Position.animateTo` (source lines 700-715): rotation and translation fields
become `0`, `scale` becomes `1`, anything else keeps `null`. -/
def nullNormAt (k : PKey) (v : JVal) : JVal :=
  if v == .null then
    match k with
    | .rotateX | .rotateY | .rotateZ | .translateX | .translateY | .translateZ => .num 0
    | .scale => .num 1
    | _ => .null
  else v

/-- The per-key admission test of the first `animateTo` loop: the canonical
value is defined and the requested end value is strictly unequal to it. -/
def animPairCond (d : PositionData) (k : PKey) (v : JVal) : Bool :=
  d k != .undef && !jEq v (d k)

/-- The `initial` record built by `animateTo` (canonical values of the
admitted keys, null-normalised), in input order. -/
def animInitial (d : PositionData) (pos : List (PKey × JVal)) : List (PKey × JVal) :=
  pos.filterMap fun kv =>
    if animPairCond d kv.1 kv.2 then some (kv.1, nullNormAt kv.1 (d kv.1)) else none

/-- The `destination` record built by `animateTo` (requested values of the
admitted keys, null-normalised), in input order. -/
def animDest (d : PositionData) (pos : List (PKey × JVal)) : List (PKey × JVal) :=
  pos.filterMap fun kv =>
    if animPairCond d kv.1 kv.2 then some (kv.1, nullNormAt kv.1 kv.2) else none

/-- The filtering loop of `animateTo` (source lines 717-723): drop every
entry whose initial value is not a finite number or whose key is already in
the currently-animating key set; add each surviving key to that set. -/
def filterAnimKeys : List (PKey × JVal) → List PKey →
    List (PKey × JVal) × List PKey
  | [], ks => ([], ks)
  | kv :: rest, ks =>
      if isFiniteJ kv.2 = false ∨ kv.1 ∈ ks then filterAnimKeys rest ks
      else
        let r := filterAnimKeys rest (setAdd ks kv.1)
        (kv :: r.1, r.2)

/-- Build a JS object from an association list (later entries overwrite). -/
def toInput (l : List (PKey × JVal)) : PositionData :=
  l.foldl (fun q kv => Function.update q kv.1 kv.2) inputEmpty

/-- An animation task (`animationData` of `Position.animateTo` plus the
`finished` flag managed by the newer `AnimationManager`; `resolved` records
that `data.resolve()` was called on the task's promise). -/
structure AnimTask where
  keys : List PKey
  initial : List (PKey × JVal)
  destination : List (PKey × JVal)
  newData : PositionData
  duration : ℚ
  start : ℚ
  easing : ℚ → ℚ
  interp : JVal → JVal → ℚ → JVal
  finished : Bool
  resolved : Bool

/-- Outcome of a `Position.animateTo` call.  `animateTo` is an `async`
function, so a `throw` in its body surfaces as a rejection of the returned
promise, never as a synchronous exception at the call site; `syncThrow` is
included only to state that distinction and is never produced. -/
inductive AnimResult where
  | syncThrow (msg : String)
  | promiseRejected (msg : String)
  | earlyNoop
  | started (t : AnimTask) (ks : List PKey)

/-- Whether the call threw synchronously (never, for an async function). -/
def AnimResult.isSyncThrow : AnimResult → Bool
  | .syncThrow _ => true
  | _ => false

/-- Whether the returned promise is rejected. -/
def AnimResult.isRejected : AnimResult → Bool
  | .promiseRejected _ => true
  | _ => false

/-- JS `Number.isInteger(v)`. -/
def jsIsInteger : JVal → Bool
  | .num x => x.den == 1
  | _ => false

/-- JS `v < 0` on a positional value (`NaN < 0` is false,
`-Infinity < 0` is true). -/
def jsLtZero : JVal → Bool
  | .num x => decide (x < 0)
  | .ninf => true
  | _ => false

/-- `Position.animateTo` (source lines 656-750): early out when the parent is
not positionable (before any argument validation); validate `duration` /
`easing` / `interpolate`, the TypeErrors becoming promise rejections because
the function is `async`; build the initial / destination records; filter
against the currently-animating key set; resolve immediately when nothing
survives, otherwise hand a task to the `AnimationManager` together with the
grown key set. -/
def Position.animateTo (st : PosState) (positionable : Bool)
    (pos : List (PKey × JVal)) (duration : JVal)
    (easingIsFn interpIsFn : Bool) (easing : ℚ → ℚ)
    (interp : JVal → JVal → ℚ → JVal) : AnimResult :=
  if !positionable then .earlyNoop
  else if !jsIsInteger duration || jsLtZero duration then
    .promiseRejected "duration is not a positive integer"
  else if !easingIsFn then .promiseRejected "easing is not a function"
  else if !interpIsFn then .promiseRejected "interpolate is not a function"
  else if (filterAnimKeys (animInitial st.data pos) st.animKeys).1.length = 0 then
    .earlyNoop
  else
    .started
      { keys := (filterAnimKeys (animInitial st.data pos) st.animKeys).1.map Prod.fst
        initial := (filterAnimKeys (animInitial st.data pos) st.animKeys).1
        destination := animDest st.data pos
        newData := toInput (filterAnimKeys (animInitial st.data pos) st.animKeys).1
        duration := finiteOr duration 0
        start := 0
        easing := easing
        interp := interp
        finished := false
        resolved := false } (filterAnimKeys (animInitial st.data pos) st.animKeys).2

/-- The final-frame data of a task: `newData` with the exact destination
value written at every task key. -/
def finishData (t : AnimTask) : PositionData :=
  t.keys.foldl
    (fun q k => Function.update q k ((t.destination.lookup k).getD JVal.undef))
    t.newData

/-- An intermediate frame of a task: `newData` with the eased, interpolated
value written at every task key. -/
def frameData (t : AnimTask) (easedT : ℚ) : PositionData :=
  t.keys.foldl
    (fun q k => Function.update q k
      (t.interp ((t.initial.lookup k).getD JVal.undef)
        ((t.destination.lookup k).getD JVal.undef) easedT))
    t.newData

/-- One pass of the newer `AnimationManager.animate` loop over a single
active task (source `src/unnamed/part_001`, lines 179-223): a disconnected
element or an already-finished task is evicted, its owning store's animating
key set cleared and its promise resolved; a task whose elapsed time reached
its duration gets the exact destination values written into `newData`, its
keys released, a final `set`, the `finished` mark and resolution; otherwise
an eased, interpolated frame is written through `set`. -/
def animTaskStep (env : SetEnv) (elConn : Bool) (current : ℚ)
    (st : PosState) (t : AnimTask) : PosState × AnimTask :=
  if elConn = false ∨ t.finished then
    ({ st with animKeys := [] }, { t with resolved := true })
  else if t.duration ≤ current - t.start then
    ((Position.set env
        { st with animKeys := t.keys.foldl (fun s k => setDelete s k) st.animKeys }
        (finishData t)).st,
      { t with newData := finishData t, finished := true, resolved := true })
  else
    ((Position.set env st (frameData t (t.easing ((current - t.start) / t.duration)))).st,
      { t with newData := frameData t (t.easing ((current - t.start) / t.duration)) })

/-- Process-wide state of the `AnimationManager`: a registry of position
stores (indexed by owner id) plus the active and pending task lists, each
task tagged with its owner. -/
structure AnimWorld where
  positions : ℕ → PosState
  active : List (ℕ × AnimTask)
  pending : List (ℕ × AnimTask)

/-- Mark a task finished and resolve its promise. -/
def settleTask (t : AnimTask) : AnimTask := { t with finished := true, resolved := true }

/-- `AnimationManager.cancelAll` (source `src/unnamed/part_001`, lines
280-302): for every active and pending task clear the owning store's
currently-animating key set, mark the task finished and resolve its promise;
then empty both lists.  Canonical position data is not touched.  The settled
task objects (still reachable through their promises) are returned alongside
the new world. -/
def AnimationManager.cancelAll (w : AnimWorld) : AnimWorld × List (ℕ × AnimTask) :=
  let owners := (w.active ++ w.pending).map Prod.fst
  ({ positions := fun i =>
       if i ∈ owners then { w.positions i with animKeys := [] } else w.positions i
     active := []
     pending := [] },
   (w.active ++ w.pending).map fun p => (p.1, settleTask p.2))

/-- A sequence of `set` calls applied in order. -/
def applySets : List (SetEnv × PositionData) → PosState → PosState
  | [], st => st
  | (env, q) :: rest, st => applySets rest (Position.set env st q).st

/-! ## Decidable record predicates -/

/-- The value is a finite number with integral value. -/
def isIntNum : JVal → Bool
  | .num x => x.den == 1
  | _ => false

/-- The scale invariant of the spec: a number in `[0, 1000]` or `null`. -/
def normScaleb : JVal → Bool
  | .num x => decide (0 ≤ x ∧ x ≤ 1000)
  | .null => true
  | _ => false

/-- No field of the record is `NaN`. -/
def noNaNb (d : PositionData) : Bool :=
  PKey.all.all fun k => d k != JVal.nan

/-- The value is not a non-finite number (`NaN`, `Infinity`, `-Infinity`
all have JS type `number`, pass the `typeof` guards of `set`, and survive
`Math.round`). -/
def finSentb : JVal → Bool
  | .nan => false
  | .inf => false
  | .ninf => false
  | _ => true

/-- No field of the record is a non-finite number. -/
def noNonFiniteb (d : PositionData) : Bool :=
  PKey.all.all fun k => finSentb (d k)

lemma finSentb_ne_nan {v : JVal} (h : finSentb v = true) : v ≠ JVal.nan := by
  cases v <;> simp_all [finSentb]

/-- The four min- / max-constraint fields hold no `NaN`. -/
def maxminOkb (d : PositionData) : Bool :=
  [PKey.maxWidth, PKey.maxHeight, PKey.minWidth, PKey.minHeight].all
    fun k => d k != JVal.nan

/-- The rounding / clamping invariant claimed for canonical data after
`set`: `left` / `top` / `zIndex` integral or `null`, `width` / `height`
integral, `null` or `'auto'`, and `scale` in `[0, 1000]` or `null`. -/
def c3Invb (d : PositionData) : Bool :=
  (isIntNum (d .left) || d .left == JVal.null) &&
  (isIntNum (d .top) || d .top == JVal.null) &&
  (isIntNum (d .zIndex) || d .zIndex == JVal.null) &&
  (isIntNum (d .width) || d .width == JVal.null || d .width == JVal.str "auto") &&
  (isIntNum (d .height) || d .height == JVal.null || d .height == JVal.str "auto") &&
  normScaleb (d .scale)

/-- The rounding performed by the constructor on its seeded fields:
`left` / `top` / `zIndex` / min- / max-constraints integral or `null`,
`width` / `height` also admitting `'auto'`. -/
def ctorRoundedb (d : PositionData) : Bool :=
  ([PKey.left, PKey.top, PKey.maxWidth, PKey.maxHeight, PKey.minWidth,
    PKey.minHeight, PKey.zIndex].all fun k => isIntNum (d k) || d k == JVal.null) &&
  (isIntNum (d .width) || d .width == JVal.null || d .width == JVal.str "auto") &&
  (isIntNum (d .height) || d .height == JVal.null || d .height == JVal.str "auto")

/-- Condition on a proposed value under which the body of `set` stores it
verbatim (it is a fixed point of the guard-and-normalise blocks). -/
def setFixb : PKey → JVal → Bool
  | .left, v => isIntNum v
  | .top, v => isIntNum v
  | .zIndex, v => isIntNum v
  | .width, v => isIntNum v || v == .str "auto" || v == .null
  | .height, v => isIntNum v || v == .str "auto" || v == .null
  | .maxWidth, v => isIntNum v || v == .null
  | .maxHeight, v => isIntNum v || v == .null
  | .minWidth, v => isIntNum v || v == .null
  | .minHeight, v => isIntNum v || v == .null
  | .rotateX, v => isFiniteJ v || v == .null
  | .rotateY, v => isFiniteJ v || v == .null
  | .rotateZ, v => isFiniteJ v || v == .null
  | .translateX, v => isFiniteJ v || v == .null
  | .translateY, v => isFiniteJ v || v == .null
  | .translateZ, v => isFiniteJ v || v == .null
  | .scale, v => normScaleb v
  | .transformOrigin, v => originIncludes v || v == .null

/-- Condition on a canonical value under which re-submitting it to `set`
with a connected element is a no-op for its field: the el-branch
pre-validation and the body both leave it unchanged and flag nothing.
(`left` / `top` must be integral numbers and `width` / `height` integral or
`'auto'`, since the pre-validation materialises those fields from the DOM
when they are `null`.) -/
def keyOk9 : PKey → JVal → Bool
  | .left, v => isIntNum v
  | .top, v => isIntNum v
  | .width, v => isIntNum v || v == .str "auto"
  | .height, v => isIntNum v || v == .str "auto"
  | .zIndex, v => isIntNum v || v == .null
  | .maxWidth, v => isIntNum v || v == .null
  | .maxHeight, v => isIntNum v || v == .null
  | .minWidth, v => isIntNum v || v == .null
  | .minHeight, v => isIntNum v || v == .null
  | .rotateX, v => isFiniteJ v || v == .null
  | .rotateY, v => isFiniteJ v || v == .null
  | .rotateZ, v => isFiniteJ v || v == .null
  | .translateX, v => isFiniteJ v || v == .null
  | .translateY, v => isFiniteJ v || v == .null
  | .translateZ, v => isFiniteJ v || v == .null
  | .scale, v => normScaleb v
  | .transformOrigin, v => originIncludes v || v == .null

/-! ## Arithmetic and fixed-point lemmas -/

lemma floor_int_add_half (n : ℤ) : ⌊(n : ℚ) + 1/2⌋ = n := by
  rw [add_comm, Int.floor_add_int]
  have h0 : ⌊(1/2 : ℚ)⌋ = 0 := by
    rw [Int.floor_eq_zero_iff]
    constructor
    · norm_num
    · norm_num
  omega

lemma jround_intCast (n : ℤ) : jround (n : ℚ) = (n : ℚ) := by
  unfold jround
  rw [floor_int_add_half]

lemma jround_den_one {x : ℚ} (h : x.den = 1) : jround x = x := by
  have hx : ((x.num : ℚ)) = x := (Rat.den_eq_one_iff x).mp h
  rw [← hx, jround_intCast]

lemma jroundJ_isIntNum {v : JVal} (h : isIntNum v = true) : jroundJ v = v := by
  cases v with
  | num x =>
      have hd : x.den = 1 := by simpa [isIntNum] using h
      have hx : ((x.num : ℚ)) = x := (Rat.den_eq_one_iff x).mp hd
      simp only [jroundJ]
      rw [← hx, jround_intCast]
  | nan => simp [isIntNum] at h
  | null => simp [isIntNum] at h
  | str s => simp [isIntNum] at h
  | undef => simp [isIntNum] at h
  | inf => simp [isIntNum] at h
  | ninf => simp [isIntNum] at h

lemma jroundJ_intNum {v : JVal} (h : isIntNum v = true) : isIntNum (jroundJ v) = true := by
  rw [jroundJ_isIntNum h]; exact h

lemma jroundJ_num_intNum (x : ℚ) : isIntNum (jroundJ (.num x)) = true := by
  simp [jroundJ, jround, isIntNum, Rat.den_intCast]

lemma jclampJ_fix {x : ℚ} (h0 : 0 ≤ x) (h1 : x ≤ 1000) :
    jclampJ (.num x) = .num x := by
  simp only [jclampJ]
  rw [min_eq_left h1, max_eq_right h0]

lemma jclampJ_norm (x : ℚ) : normScaleb (jclampJ (.num x)) = true := by
  simp only [jclampJ, normScaleb, decide_eq_true_eq]
  constructor
  · exact le_max_left 0 _
  · have : min x 1000 ≤ 1000 := min_le_right x 1000
    simpa [max_le_iff] using this

/-- The body of `set` stores the proposed value verbatim when it satisfies
`setFixb`, or when both the proposed and the current value are `null` (the
`null` proposal is ignored for `left` / `top` / `zIndex` but the current
value already equals it). -/
lemma bodyAt_restore {k : PKey} {cur v : JVal}
    (h : setFixb k v = true ∨ (v = JVal.null ∧ cur = JVal.null)) :
    bodyAt k cur v = v := by
  rcases h with h | ⟨hv, hcur⟩
  · cases k <;> cases v <;>
      simp_all [setFixb, bodyAt, bodyGuard, bodyNorm, typeofNumber,
        isIntNum, jroundJ_isIntNum, isFiniteJ, typeofString, normScaleb,
        originIncludes] <;>
      first
      | exact jroundJ_isIntNum (by simp [isIntNum, h])
      | exact jclampJ_fix h.1 h.2
  · subst hv; subst hcur
    cases k <;> simp [bodyAt, bodyGuard, bodyNorm, typeofNumber, isFiniteJ,
      typeofString, originIncludes]

/-- Under `keyOk9` the body of `set` neither changes the canonical value nor
flags a change when fed the canonical value back. -/
lemma bodyAt_id {k : PKey} {v : JVal} (h : keyOk9 k v = true) :
    bodyAt k v v = v ∧ bodyDelta k v v = false := by
  cases k <;> cases v <;>
    simp_all [keyOk9, bodyAt, bodyDelta, bodyGuard, bodyNorm, typeofNumber,
      isIntNum, isFiniteJ, typeofString, normScaleb, originIncludes, jEq,
      jroundJ, jclampJ] <;>
    first
    | (rename_i x
       simp [jround_den_one h])
    | (rw [min_eq_left h.2, max_eq_right h.1]
       simp)

set_option maxHeartbeats 2000000 in
/-- Under `keyOk9` on every field, the pre-validation pass of
`#updatePosition` maps the canonical data to itself when the proposal equals
the canonical data. -/
lemma preValidate_id (env : SetEnv) (e : ElEnv) (st : PositionData)
    (h : ∀ k, keyOk9 k (st k) = true) :
    preValidate env e st st = st := by
  funext k
  have hk := h k
  cases k <;> simp only [preValidate]
  case left =>
    rcases hcase : st PKey.left with x | _ | _ | s | _ | _ | _ <;>
      simp_all [keyOk9, isIntNum, isFiniteJ]
  case top =>
    rcases hcase : st PKey.top with x | _ | _ | s | _ | _ | _ <;>
      simp_all [keyOk9, isIntNum, isFiniteJ]
  case width =>
    rcases hcase : st PKey.width with x | _ | _ | s | _ | _ | _ <;>
      simp_all [keyOk9, isIntNum, isFiniteJ, jround_den_one]
  case height =>
    rcases hcase : st PKey.height with x | _ | _ | s | _ | _ | _ <;>
      simp_all [keyOk9, isIntNum, isFiniteJ, jround_den_one]
  case maxWidth =>
    rcases hcase : st PKey.maxWidth with x | _ | _ | s | _ | _ | _ <;>
      simp_all [keyOk9, isIntNum, isFiniteJ, jroundJ, jround_den_one]
  case maxHeight =>
    rcases hcase : st PKey.maxHeight with x | _ | _ | s | _ | _ | _ <;>
      simp_all [keyOk9, isIntNum, isFiniteJ, jroundJ, jround_den_one]
  case minWidth =>
    rcases hcase : st PKey.minWidth with x | _ | _ | s | _ | _ | _ <;>
      simp_all [keyOk9, isIntNum, isFiniteJ, jroundJ, jround_den_one]
  case minHeight =>
    rcases hcase : st PKey.minHeight with x | _ | _ | s | _ | _ | _ <;>
      simp_all [keyOk9, isIntNum, isFiniteJ, jroundJ, jround_den_one]
  case rotateX => split <;> rfl
  case rotateY => split <;> rfl
  case rotateZ => split <;> rfl
  case translateX => split <;> rfl
  case translateY => split <;> rfl
  case translateZ => split <;> rfl
  case scale =>
    rcases hcase : st PKey.scale with x | _ | _ | s | _ | _ | _ <;>
      simp_all [keyOk9, normScaleb, typeofNumber, jclampJ] <;>
      rw [min_eq_left hk.2, max_eq_right hk.1]
  case transformOrigin =>
    rcases hcase : st PKey.transformOrigin with x | _ | _ | s | _ | _ | _ <;>
      simp_all [keyOk9, typeofString, originIncludes]
  case zIndex =>
    rcases hcase : st PKey.zIndex with x | _ | _ | s | _ | _ | _ <;>
      simp_all [keyOk9, isIntNum, typeofNumber, jroundJ, jround_den_one]

/-! ## Structural lemmas about `set` -/

lemma set_dataSaved (env : SetEnv) (st : PosState) (q : PositionData) :
    (Position.set env st q).st.dataSaved = st.dataSaved := by
  unfold Position.set
  repeat' split
  all_goals rfl

lemma set_animKeys (env : SetEnv) (st : PosState) (q : PositionData) :
    (Position.set env st q).st.animKeys = st.animKeys := by
  unfold Position.set
  repeat' split
  all_goals rfl

/-- The element-less branch of `set`: canonical data and notification are a
direct application of the body. -/
lemma set_noEl (env : SetEnv) (st : PosState) (q : PositionData)
    (hp : env.positionable = true) (he : env.el = none) :
    Position.set env st q =
      ⟨{ st with
          data := (applyBody st.data st.changeSet q).1
          changeSet := if (applyBody st.data st.changeSet q).2.hasChange then
            ChangeSet.all false else (applyBody st.data st.changeSet q).2 },
        false, (applyBody st.data st.changeSet q).2.hasChange⟩ := by
  unfold Position.set
  rw [hp, he]
  rfl

/-! ## List and update lemmas -/

lemma foldl_update_not_mem (l : List PKey) (g : PKey → JVal) (q0 : PositionData)
    {k : PKey} (hk : k ∉ l) :
    (l.foldl (fun q x => Function.update q x (g x)) q0) k = q0 k := by
  induction l generalizing q0 with
  | nil => rfl
  | cons a rest ih =>
      have hka : k ≠ a := fun heq => hk (heq ▸ List.mem_cons_self a rest)
      have hkr : k ∉ rest := fun hmem => hk (List.mem_cons_of_mem a hmem)
      simp only [List.foldl_cons]
      rw [ih _ hkr]
      exact Function.update_noteq hka _ _

lemma foldl_update_mem (l : List PKey) (g : PKey → JVal) (q0 : PositionData)
    {k : PKey} (hnd : l.Nodup) (hk : k ∈ l) :
    (l.foldl (fun q x => Function.update q x (g x)) q0) k = g k := by
  induction l generalizing q0 with
  | nil => cases hk
  | cons a rest ih =>
      simp only [List.foldl_cons]
      by_cases hka : k = a
      · subst hka
        have hkr : k ∉ rest := (List.nodup_cons.mp hnd).1
        rw [foldl_update_not_mem rest g _ hkr]
        exact Function.update_same _ _ _
      · have hkr : k ∈ rest := by
          rcases List.mem_cons.mp hk with h | h
          · exact absurd h hka
          · exact h
        exact ih _ (List.nodup_cons.mp hnd).2 hkr

lemma mem_setDelete {l : List PKey} {x k : PKey} :
    x ∈ setDelete l k ↔ x ∈ l ∧ x ≠ k := by
  simp [setDelete]

lemma not_mem_foldl_setDelete_of_not_mem (l : List PKey) {s : List PKey}
    {k : PKey} (hk : k ∉ s) : k ∉ l.foldl (fun t x => setDelete t x) s := by
  induction l generalizing s with
  | nil => exact hk
  | cons a rest ih =>
      simp only [List.foldl_cons]
      exact ih fun hmem => hk (mem_setDelete.mp hmem).1

lemma not_mem_foldl_setDelete_of_mem (l : List PKey) (s : List PKey)
    {k : PKey} (hk : k ∈ l) : k ∉ l.foldl (fun t x => setDelete t x) s := by
  induction l generalizing s with
  | nil => cases hk
  | cons a rest ih =>
      simp only [List.foldl_cons]
      by_cases hka : k = a
      · subst hka
        exact not_mem_foldl_setDelete_of_not_mem rest
          fun hmem => (mem_setDelete.mp hmem).2 rfl
      · have hkr : k ∈ rest := by
          rcases List.mem_cons.mp hk with h | h
          · exact absurd h hka
          · exact h
        exact ih _ hkr

/-- Shape of the canonical data produced by `set`: either untouched (gate,
veto) or the body applied to some proposal, which is the raw input exactly
when no element is connected. -/
lemma set_data_shape (env : SetEnv) (st : PosState) (q : PositionData) :
    (Position.set env st q).st.data = st.data ∨
    (∃ cs0 q2, (Position.set env st q).st.data = (applyBody st.data cs0 q2).1 ∧
      (env.el = none → q2 = q)) := by
  unfold Position.set
  by_cases hp : (!env.positionable) = true
  · rw [if_pos hp]; left; rfl
  · rw [if_neg hp]
    rcases hel : env.el with _ | e
    · right
      exact ⟨st.changeSet, q, rfl, fun _ => rfl⟩
    · rcases hup : updatePositionValidated env e st.data q with _ | q2
      · left
        simp only [hup]
      · right
        refine ⟨if env.styleCacheHasData then st.changeSet else ChangeSet.all true,
          q2, ?_, fun hn => ?_⟩
        · simp only [hup]
        · exact Option.noConfusion hn

/-- The body never stores `NaN` when neither the current nor the proposed
value is `NaN`. -/
lemma bodyAt_not_nan {k : PKey} {cur q : JVal} (hcur : cur ≠ .nan)
    (hq : q ≠ .nan) : bodyAt k cur q ≠ .nan := by
  cases k <;> cases q <;>
    simp_all [bodyAt, bodyGuard, bodyNorm, typeofNumber, isFiniteJ,
      typeofString, originIncludes, jroundJ, jclampJ] <;>
    split <;> simp_all

/-- The four constraint fields are guarded by `Number.isFinite`, so the body
never stores `NaN` in them regardless of the proposal. -/
lemma bodyAt_maxmin_not_nan {k : PKey}
    (hk : k = .maxWidth ∨ k = .maxHeight ∨ k = .minWidth ∨ k = .minHeight)
    {cur q : JVal} (hcur : cur ≠ .nan) : bodyAt k cur q ≠ .nan := by
  rcases hk with h | h | h | h <;> subst h <;> cases q <;>
    simp_all [bodyAt, bodyGuard, bodyNorm, typeofNumber, isFiniteJ, jroundJ]

/-- C1 (confirmed).  With a connected target element, whenever the validator
pipeline of `#updatePosition` vetoes the update (some validator returned
`null`), `set` returns with the canonical position data completely
unchanged, registers no DOM-sync callback with the update manager (so no
element-update promise is created for that call), performs no synchronous
subscriber notification, and leaves the default snapshot and the named-save
map untouched. -/
theorem c1_validator_veto_aborts_set (env : SetEnv) (st : PosState)
    (q : PositionData) (e : ElEnv) (hel : env.el = some e)
    (hveto : runPipeline env.validators (preValidate env e st.data q) = none) :
    (Position.set env st q).st.data = st.data ∧
    (Position.set env st q).registeredUpdate = false ∧
    (Position.set env st q).notified = false ∧
    (Position.set env st q).st.defaultData = st.defaultData ∧
    (Position.set env st q).st.dataSaved = st.dataSaved := by
  unfold Position.set
  by_cases hp : (!env.positionable) = true
  · rw [if_pos hp]; exact ⟨rfl, rfl, rfl, rfl, rfl⟩
  · rw [if_neg hp]
    rw [hel]
    have hup : updatePositionValidated env e st.data q = none := hveto
    simp [hup]

/-- Concrete always-vetoing validator environment for the C1 witness. -/
def elW : ElEnv := ⟨true, true, true, true, 100, 50⟩

/-- Environment with one validator that always returns `null`. -/
def envVetoW : SetEnv :=
  { positionable := true, el := some elW, styleCacheHasData := true,
    validators := [fun _ => none], getLeft := none, getTop := none }

/-- A fresh `Position` state (constructor defaults, nothing animating). -/
def stInit : PosState :=
  { data := PositionData.init, changeSet := ChangeSet.all false,
    defaultData := none, animKeys := [], dataSaved := [] }

/-- Witness for C1 at a concrete input: the single validator vetoes and the
canonical data survives unchanged with no callback registration. -/
theorem c1_validator_veto_witness :
    runPipeline envVetoW.validators
      (preValidate envVetoW elW stInit.data
        (Function.update inputEmpty .left (JVal.num 5))) = none ∧
    (Position.set envVetoW stInit
      (Function.update inputEmpty .left (JVal.num 5))).st.data = stInit.data ∧
    (Position.set envVetoW stInit
      (Function.update inputEmpty .left (JVal.num 5))).registeredUpdate = false := by
  refine ⟨rfl, ?_, ?_⟩
  · exact (c1_validator_veto_aborts_set envVetoW stInit _ elW rfl rfl).1
  · exact (c1_validator_veto_aborts_set envVetoW stInit _ elW rfl rfl).2.1

/-- Element-less environment used by several concrete evaluations. -/
def envNoEl : SetEnv :=
  { positionable := true, el := none, styleCacheHasData := false,
    validators := [], getLeft := none, getTop := none }

/-- C2 counterexample: `set({left: NaN})` is accepted by the
`typeof === 'number'` guard, `Math.round(NaN)` is `NaN`, and `NaN !== NaN`
makes the comparison register a change, so `NaN` persists in canonical
`left` — the claimed invariant fails on the code. -/
theorem c2_nan_counterexample :
    noNaNb stInit.data = true ∧
    (Position.set envNoEl stInit
      (Function.update inputEmpty .left JVal.nan)).st.data PKey.left = JVal.nan := by
  exact ⟨by decide, by decide⟩

/-- C2 (amended).  The four min- / max-constraint fields are guarded by
`Number.isFinite` and can never hold `NaN` after `set`; the remaining fields
are guarded only by `typeof === 'number'`, so `NaN` is excluded after `set`
only when neither the prior canonical data nor the input carries `NaN` (the
element-less branch; with an element a validator may inject arbitrary
values). -/
theorem c2_amended_nan_containment (env : SetEnv) (st : PosState)
    (q : PositionData) :
    (maxminOkb st.data = true →
      maxminOkb (Position.set env st q).st.data = true) ∧
    (env.el = none → noNaNb st.data = true → noNaNb q = true →
      noNaNb (Position.set env st q).st.data = true) := by
  constructor
  · intro h
    rcases set_data_shape env st q with hd | ⟨cs0, q2, hd, _⟩
    · rw [hd]; exact h
    · rw [hd]
      simp only [maxminOkb, List.all_eq_true, bne_iff_ne, ne_eq] at h ⊢
      intro k hk
      have hcur := h k hk
      have hk4 : k = .maxWidth ∨ k = .maxHeight ∨ k = .minWidth ∨ k = .minHeight := by
        simpa using hk
      exact bodyAt_maxmin_not_nan hk4 hcur
  · intro hel hst hq
    rcases set_data_shape env st q with hd | ⟨cs0, q2, hd, hq2⟩
    · rw [hd]; exact hst
    · rw [hd]
      have hq2q := hq2 hel
      subst hq2q
      simp only [noNaNb, List.all_eq_true, bne_iff_ne, ne_eq] at hst hq ⊢
      intro k hk
      exact bodyAt_not_nan (hst k hk) (hq k hk)

/-- Witness for C2 (amended) at a concrete input. -/
theorem c2_amended_witness :
    maxminOkb stInit.data = true ∧
    maxminOkb (Position.set envNoEl stInit
      (Function.update inputEmpty .maxWidth JVal.nan)).st.data = true := by
  exact ⟨by decide,
    (c2_amended_nan_containment envNoEl stInit
      (Function.update inputEmpty .maxWidth JVal.nan)).1 (by decide)⟩

/-! ## C3: rounding and clamping -/

lemma bodyAt_round_c3 {k : PKey} (hk : k = .left ∨ k = .top ∨ k = .zIndex)
    {cur q : JVal} (hq : finSentb q = true)
    (hc : (isIntNum cur || cur == JVal.null) = true) :
    (isIntNum (bodyAt k cur q) || bodyAt k cur q == JVal.null) = true := by
  rcases hk with h | h | h <;> subst h <;> cases q <;>
    simp_all [finSentb, bodyAt, bodyGuard, bodyNorm, typeofNumber, jroundJ,
      jround, isIntNum, Rat.den_intCast]

lemma bodyAt_wh_c3 {k : PKey} (hk : k = .width ∨ k = .height)
    {cur q : JVal} (hq : finSentb q = true)
    (hc : (isIntNum cur || cur == JVal.null || cur == JVal.str "auto") = true) :
    (isIntNum (bodyAt k cur q) || bodyAt k cur q == JVal.null ||
      bodyAt k cur q == JVal.str "auto") = true := by
  rcases hk with h | h <;> subst h
  all_goals
    cases q with
    | str s =>
        by_cases hs : s = "auto" <;>
          simp_all [bodyAt, bodyGuard, bodyNorm, typeofNumber, isIntNum]
    | num x =>
        simp_all [bodyAt, bodyGuard, bodyNorm, typeofNumber, jroundJ, jround,
          isIntNum, Rat.den_intCast]
    | nan => simp_all [finSentb]
    | null => simp_all [bodyAt, bodyGuard, bodyNorm, typeofNumber]
    | undef => simp_all [bodyAt, bodyGuard, bodyNorm, typeofNumber]
    | inf => simp_all [finSentb]
    | ninf => simp_all [finSentb]

lemma bodyAt_scale_c3 {cur q : JVal} (hq : q ≠ .nan)
    (hc : normScaleb cur = true) :
    normScaleb (bodyAt .scale cur q) = true := by
  cases q <;>
    simp_all [bodyAt, bodyGuard, bodyNorm, typeofNumber, normScaleb] <;>
    first
    | exact (by simpa [normScaleb] using jclampJ_norm _)
    | rfl

/-- The constructor guard-and-round pattern of the numeric fields. -/
def ctorNumField (v : JVal) : JVal :=
  if ctorGuardFin v then (if typeofNumber v then jroundJ v else v) else JVal.null

/-- The constructor guard-and-round pattern of `width` / `height`. -/
def ctorWHField (v : JVal) : JVal :=
  if isFiniteJ v || v == JVal.str "auto" || v == JVal.null then
    (if typeofNumber v then jroundJ v else v)
  else JVal.null

lemma ctorNumField_ok (v : JVal) :
    (isIntNum (ctorNumField v) || ctorNumField v == JVal.null) = true := by
  cases v <;> simp [ctorNumField, ctorGuardFin, isFiniteJ, typeofNumber,
    jroundJ, jround, isIntNum, Rat.den_intCast]

lemma ctorWHField_ok (v : JVal) :
    (isIntNum (ctorWHField v) || ctorWHField v == JVal.null ||
      ctorWHField v == JVal.str "auto") = true := by
  cases v with
  | str s =>
      by_cases hs : s = "auto" <;>
        simp [ctorWHField, isFiniteJ, typeofNumber, isIntNum, hs]
  | num x =>
      simp [ctorWHField, isFiniteJ, typeofNumber, jroundJ, jround, isIntNum,
        Rat.den_intCast]
  | nan => simp [ctorWHField, isFiniteJ, typeofNumber, jroundJ, isIntNum]
  | null => simp [ctorWHField, isFiniteJ, typeofNumber, isIntNum]
  | undef => simp [ctorWHField, isFiniteJ, typeofNumber, isIntNum]
  | inf => simp [ctorWHField, isFiniteJ, typeofNumber, isIntNum]
  | ninf => simp [ctorWHField, isFiniteJ, typeofNumber, isIntNum]

/-- C3 counterexample: the constructor stores `options.scale` without
clamping (`transforms.scale = data.scale = options.scale`), so a `Position`
constructed with `scale: 2000` carries a canonical scale outside
`[0, 1000]` — the claim fails for constructor-seeded values. -/
theorem c3_ctor_scale_counterexample :
    Position.mkData (Function.update inputEmpty .scale (JVal.num 2000)) .scale
      = JVal.num 2000 ∧
    normScaleb (Position.mkData
      (Function.update inputEmpty .scale (JVal.num 2000)) .scale) = false := by
  exact ⟨by decide, by decide⟩

/-- C3 (amended).  After any element-less `set` whose input fields carry no
non-finite number (no `NaN`, no `±Infinity` — all of which pass the
`typeof === 'number'` guards and survive `Math.round`), the canonical data
keeps the invariant "`scale` in `[0, 1000]` or `null`; `left` / `top` /
`width` / `height` / `zIndex` integral or their sentinel", and the
constructor rounds `left` / `top` / `width` / `height` / `zIndex` and the
min- / max-constraints to integers — but the constructor does not clamp
`scale`, which is stored raw. -/
theorem c3_amended_round_clamp :
    (∀ (env : SetEnv) (st : PosState) (q : PositionData), env.el = none →
      noNonFiniteb q = true → c3Invb st.data = true →
      c3Invb (Position.set env st q).st.data = true) ∧
    (∀ opts : PositionData, ctorRoundedb (Position.mkData opts) = true) := by
  constructor
  · intro env st q hel hq hinv
    rcases set_data_shape env st q with hd | ⟨cs0, q2, hd, hq2⟩
    · rw [hd]; exact hinv
    · rw [hd]
      have hq2q := hq2 hel
      subst hq2q
      have hqk : ∀ k, finSentb (q2 k) = true := by
        intro k
        have := hq
        simp only [noNonFiniteb, List.all_eq_true] at this
        exact this k (by cases k <;> simp [PKey.all])
      simp only [c3Invb, Bool.and_eq_true] at hinv ⊢
      obtain ⟨⟨⟨⟨⟨hl, ht⟩, hz⟩, hw⟩, hh⟩, hs⟩ := hinv
      refine ⟨⟨⟨⟨⟨?_, ?_⟩, ?_⟩, ?_⟩, ?_⟩, ?_⟩
      · exact bodyAt_round_c3 (Or.inl rfl) (hqk _) hl
      · exact bodyAt_round_c3 (Or.inr (Or.inl rfl)) (hqk _) ht
      · exact bodyAt_round_c3 (Or.inr (Or.inr rfl)) (hqk _) hz
      · exact bodyAt_wh_c3 (Or.inl rfl) (hqk _) hw
      · exact bodyAt_wh_c3 (Or.inr rfl) (hqk _) hh
      · exact bodyAt_scale_c3 (finSentb_ne_nan (hqk _)) hs
  · intro opts
    simp only [ctorRoundedb, Bool.and_eq_true, List.all_eq_true]
    refine ⟨⟨?_, ?_⟩, ?_⟩
    · intro k hk
      fin_cases hk
      · exact ctorNumField_ok (opts PKey.left)
      · exact ctorNumField_ok (opts PKey.top)
      · exact ctorNumField_ok (opts PKey.maxWidth)
      · exact ctorNumField_ok (opts PKey.maxHeight)
      · exact ctorNumField_ok (opts PKey.minWidth)
      · exact ctorNumField_ok (opts PKey.minHeight)
      · exact ctorNumField_ok (opts PKey.zIndex)
    · exact ctorWHField_ok (opts PKey.width)
    · exact ctorWHField_ok (opts PKey.height)

/-- Witness for C3 (amended) at concrete inputs: an element-less `set` with
a fractional `left` and an oversized `scale` lands on the invariant. -/
theorem c3_amended_witness :
    noNonFiniteb (Function.update (Function.update inputEmpty .left
      (JVal.num (7/2))) .scale (JVal.num 5000)) = true ∧
    c3Invb stInit.data = true ∧
    c3Invb (Position.set envNoEl stInit
      (Function.update (Function.update inputEmpty .left (JVal.num (7/2)))
        .scale (JVal.num 5000))).st.data = true := by
  refine ⟨by decide, by decide, ?_⟩
  exact c3_amended_round_clamp.1 envNoEl stInit _ rfl (by decide) (by decide)

/-- Why the amended C3 invariant must exclude the infinities as well as
`NaN`: `typeof Infinity === 'number'`, so `set({left: Infinity})` passes the
guard, `Math.round(Infinity)` is `Infinity`, and a non-integer persists in
canonical `left`. -/
lemma set_left_infinity_persists :
    (Position.set envNoEl stInit
      (Function.update inputEmpty .left JVal.inf)).st.data PKey.left = JVal.inf := by
  decide

/-! ## C9: idempotence of `set` -/

/-- The applied el-branch of `set`, characterised componentwise. -/
lemma set_el_apply (env : SetEnv) (st : PosState) (q : PositionData)
    (e : ElEnv) (hp : env.positionable = true) (hel : env.el = some e)
    (hc : env.styleCacheHasData = true) {q2 : PositionData}
    (hup : updatePositionValidated env e st.data q = some q2) :
    (Position.set env st q).st.data = (applyBody st.data st.changeSet q2).1 ∧
    (Position.set env st q).st.changeSet = (applyBody st.data st.changeSet q2).2 ∧
    (Position.set env st q).registeredUpdate = true ∧
    (Position.set env st q).notified = false := by
  unfold Position.set
  rw [hel]
  simp [hp, hc, hup]

/-- C9 (amended).  For a `Position` in a settled, `NaN`-free state
(`keyOk9` on every canonical field, change set clear, style cache warm, no
validators), calling `set` again with the current canonical data leaves the
data untouched, sets no change-set bit, and although the DOM-sync callback
is still registered, the frame callback then performs no style write and the
subscriber-update routine early-outs.  (With `NaN` in canonical state the
claim fails, see the counterexample.) -/
theorem c9_amended_set_idempotent (env : SetEnv) (st : PosState) (e : ElEnv)
    (hp : env.positionable = true) (hel : env.el = some e)
    (hv : env.validators = []) (hc : env.styleCacheHasData = true)
    (hcs : st.changeSet = ChangeSet.all false)
    (hok : ∀ k, keyOk9 k (st.data k) = true) :
    (Position.set env st st.data).st.data = st.data ∧
    (Position.set env st st.data).st.changeSet = ChangeSet.all false ∧
    (Position.set env st st.data).registeredUpdate = true ∧
    (Position.set env st st.data).notified = false ∧
    (updateElementNew true (Position.set env st st.data).st.data
      (Position.set env st st.data).st.changeSet).1 = [] ∧
    (updateElementNew true (Position.set env st st.data).st.data
      (Position.set env st st.data).st.changeSet).2.1 = false := by
  have hup : updatePositionValidated env e st.data st.data = some st.data := by
    simp [updatePositionValidated, hv, runPipeline, preValidate_id env e st.data hok]
  obtain ⟨hd, hcs2, hr, hn⟩ := set_el_apply env st st.data e hp hel hc hup
  have hdata : (applyBody st.data st.changeSet st.data).1 = st.data := by
    funext k
    exact (bodyAt_id (hok k)).1
  have hdelta : ∀ k, bodyDelta k (st.data k) (st.data k) = false :=
    fun k => (bodyAt_id (hok k)).2
  have hcs3 : (applyBody st.data st.changeSet st.data).2 = ChangeSet.all false := by
    simp [applyBody, ChangeSet.all, hdelta, hcs]
  refine ⟨hd.trans hdata, hcs2.trans hcs3, hr, hn, ?_, ?_⟩
  · rw [hd.trans hdata, hcs2.trans hcs3]
    simp [updateElementNew, ChangeSet.all, ChangeSet.hasChange]
  · rw [hd.trans hdata, hcs2.trans hcs3]
    simp [updateElementNew, ChangeSet.all, ChangeSet.hasChange]

/-- Data of a settled, element-backed `Position` used by the C9 witness. -/
def dataW : PositionData := fun k =>
  match k with
  | .left => JVal.num 100
  | .top => JVal.num 50
  | .width => JVal.num 200
  | .height => JVal.str "auto"
  | .transformOrigin => JVal.str "top left"
  | .scale => JVal.num 1
  | _ => JVal.null

/-- Settled state for the C9 witness. -/
def stW : PosState :=
  { data := dataW, changeSet := ChangeSet.all false, defaultData := some dataW,
    animKeys := [], dataSaved := [] }

/-- Element-backed environment with a warm style cache and no validators. -/
def envElW : SetEnv :=
  { positionable := true, el := some elW, styleCacheHasData := true,
    validators := [], getLeft := none, getTop := none }

/-- Witness for C9 (amended) at a concrete settled state. -/
theorem c9_amended_witness :
    (∀ k, keyOk9 k (stW.data k) = true) ∧
    (Position.set envElW stW stW.data).st.data = stW.data ∧
    (Position.set envElW stW stW.data).st.changeSet = ChangeSet.all false ∧
    (Position.set envElW stW stW.data).notified = false := by
  have h := c9_amended_set_idempotent envElW stW elW rfl rfl rfl rfl rfl
    (by intro k; cases k <;> decide)
  exact ⟨by intro k; cases k <;> decide, h.1, h.2.1, h.2.2.2.1⟩

/-- C9 counterexample: after `set({left: NaN})` the canonical `left` is
`NaN`; submitting the very same input again flags `left` and notifies
subscribers a second time, because `NaN !== NaN` — `set` is not idempotent
in the presence of `NaN`. -/
theorem c9_nan_not_idempotent :
    (Position.set envNoEl stInit
      (Function.update inputEmpty .left JVal.nan)).st.data PKey.left = JVal.nan ∧
    (Position.set envNoEl
      (Position.set envNoEl stInit (Function.update inputEmpty .left JVal.nan)).st
      (Function.update inputEmpty .left JVal.nan)).notified = true ∧
    (Position.set envNoEl
      (Position.set envNoEl stInit (Function.update inputEmpty .left JVal.nan)).st
      (Function.update inputEmpty .left JVal.nan)).st.changeSet = ChangeSet.all false := by
  exact ⟨by decide, by decide, by decide⟩

/-! ## C8: reset gating and restoration -/

/-- Reduction of a successful `reset` to its `set` call. -/
lemma reset_apply (env : SetEnv) (st : PosState) (keep : Bool)
    (dd : PositionData) (hdd : st.defaultData = some dd)
    (hak : st.animKeys = []) :
    Position.reset env st keep true =
      (true, (Position.set env st
        (if keep then Function.update dd .zIndex (st.data .zIndex) else dd)).st) := by
  unfold Position.reset
  simp only [hdd]
  rw [if_neg (fun h => h hak), hak]
  rfl

/-- C8 (amended).  `reset` returns `false` with nothing changed when no
default snapshot has been captured or when the animating key set is
non-empty; otherwise it returns `true` and (element-less path, default
`invokeSet`) runs the snapshot through `set`, which restores every snapshot
value that survives the body guards — a `null` snapshot value for `left` /
`top` / `zIndex` is ignored by `set` and the current value persists, so full
restoration additionally needs those fields to be numeric (or already equal,
as under `keepZIndex`). -/
theorem c8_amended_reset (env : SetEnv) (st : PosState) (keep : Bool)
    (dd d1 : PositionData) (hp : env.positionable = true) (hel : env.el = none)
    (hd1 : d1 = if keep then Function.update dd .zIndex (st.data .zIndex) else dd) :
    (st.defaultData = none →
      ∀ inv, Position.reset env st keep inv = (false, st)) ∧
    (st.animKeys ≠ [] →
      ∀ inv, Position.reset env st keep inv = (false, st)) ∧
    (st.defaultData = some dd → st.animKeys = [] →
      (∀ k, setFixb k (d1 k) = true ∨ (d1 k = JVal.null ∧ st.data k = JVal.null)) →
      (Position.reset env st keep true).1 = true ∧
      (Position.reset env st keep true).2.data = d1) := by
  refine ⟨?_, ?_, ?_⟩
  · intro hdef inv
    unfold Position.reset
    rw [hdef]
  · intro hanim inv
    unfold Position.reset
    cases hdd : st.defaultData with
    | none => rfl
    | some dd2 =>
        change (if st.animKeys ≠ [] then (false, st) else _) = (false, st)
        rw [if_pos hanim]
  · intro hdd hak hfix
    rw [reset_apply env st keep dd hdd hak, ← hd1]
    refine ⟨rfl, ?_⟩
    show (Position.set env st d1).st.data = d1
    rw [set_noEl env st d1 hp hel]
    funext k
    exact bodyAt_restore (hfix k)

/-- Snapshot with a `null` `zIndex` for the C8 counterexample. -/
def ddC8 : PositionData := fun k =>
  match k with
  | .left => JVal.num 1
  | .top => JVal.num 2
  | .transformOrigin => JVal.str "top left"
  | _ => JVal.null

/-- State whose current `zIndex` is `5` while the captured default has
`zIndex: null`. -/
def stC8 : PosState :=
  { data := fun k =>
      match k with
      | .left => JVal.num 1
      | .top => JVal.num 2
      | .zIndex => JVal.num 5
      | .transformOrigin => JVal.str "top left"
      | _ => JVal.null
    changeSet := ChangeSet.all false
    defaultData := some ddC8
    animKeys := []
    dataSaved := [] }

/-- C8 counterexample: with a captured default whose `zIndex` is `null` and
a current `zIndex` of `5`, `reset({keepZIndex: false})` succeeds (`true`)
but the canonical `zIndex` stays `5` — the captured default is not restored,
because `set` ignores a `null` `zIndex`. -/
theorem c8_null_zindex_counterexample :
    stC8.defaultData = some ddC8 ∧ ddC8 PKey.zIndex = JVal.null ∧
    (Position.reset envNoEl stC8 false true).1 = true ∧
    (Position.reset envNoEl stC8 false true).2.data PKey.zIndex = JVal.num 5 := by
  exact ⟨rfl, by decide, by decide, by decide⟩

/-- Witness for C8 (amended) at a concrete state. -/
theorem c8_amended_witness :
    stW.defaultData = some dataW ∧ stW.animKeys = [] ∧
    (Position.reset envNoEl stW false true).1 = true ∧
    (Position.reset envNoEl stW false true).2.data = dataW := by
  have h := (c8_amended_reset envNoEl stW false dataW dataW rfl rfl (by rfl)).2.2
    rfl rfl (by
      intro k
      cases k <;> first
      | exact Or.inl (by decide)
      | exact Or.inr (by decide))
  exact ⟨rfl, rfl, h.1, h.2⟩

/-! ## C10: named snapshots survive later mutation -/

lemma applySets_dataSaved (ops : List (SetEnv × PositionData)) (st : PosState) :
    (applySets ops st).dataSaved = st.dataSaved := by
  induction ops generalizing st with
  | nil => rfl
  | cons p rest ih =>
      show (applySets rest (Position.set p.1 st p.2).st).dataSaved = st.dataSaved
      rw [ih, set_dataSaved]

/-- C10 (confirmed).  `save(name)` stores a copy of the current canonical
data; after any sequence of later `set` calls, `getSave({name})` still
returns exactly the data captured at save time. -/
theorem c10_save_unaffected_by_set (ops : List (SetEnv × PositionData))
    (st : PosState) (name : String) :
    Position.getSave (applySets ops (Position.save st name)) name = some st.data := by
  unfold Position.getSave
  rw [applySets_dataSaved]
  simp [Position.save, List.lookup]

/-! ## C4: at most one active animation per field -/

lemma mem_setAdd_of_mem {ks : List PKey} {k k2 : PKey} (hk : k ∈ ks) :
    k ∈ setAdd ks k2 := by
  unfold setAdd
  split
  · exact hk
  · exact List.mem_append_left _ hk

lemma mem_setAdd_self (ks : List PKey) (k : PKey) : k ∈ setAdd ks k := by
  unfold setAdd
  split
  · assumption
  · exact List.mem_append_right _ (List.mem_singleton.mpr rfl)

lemma not_mem_setAdd {ks : List PKey} {k k2 : PKey} (hk : k ∉ ks)
    (hne : k ≠ k2) : k ∉ setAdd ks k2 := by
  unfold setAdd
  split
  · exact hk
  · intro hmem
    rcases List.mem_append.mp hmem with h | h
    · exact hk h
    · exact hne (List.mem_singleton.mp h)

/-- The filter loop only grows the animating key set. -/
lemma filterAnimKeys_sup (l : List (PKey × JVal)) (ks : List PKey) {k : PKey}
    (hk : k ∈ ks) : k ∈ (filterAnimKeys l ks).2 := by
  induction l generalizing ks with
  | nil => exact hk
  | cons kv rest ih =>
      unfold filterAnimKeys
      split
      · exact ih ks hk
      · exact ih (setAdd ks kv.1) (mem_setAdd_of_mem hk)

/-- A key already in the animating set is dropped from the surviving
entries of the filter loop (and stays in the set). -/
lemma filterAnimKeys_drop (l : List (PKey × JVal)) (ks : List PKey) {k : PKey}
    (hk : k ∈ ks) :
    k ∉ (filterAnimKeys l ks).1.map Prod.fst ∧ k ∈ (filterAnimKeys l ks).2 := by
  refine ⟨?_, filterAnimKeys_sup l ks hk⟩
  induction l generalizing ks with
  | nil => simp [filterAnimKeys]
  | cons kv rest ih =>
      unfold filterAnimKeys
      split
      · exact ih ks hk
      · rename_i hcond
        have hne : k ≠ kv.1 := by
          intro heq
          exact hcond (Or.inr (heq ▸ hk))
        simp only [List.map_cons, List.mem_cons]
        intro hmem
        rcases hmem with h | h
        · exact hne h
        · exact ih (setAdd ks kv.1) (mem_setAdd_of_mem hk) h

/-- A key not yet animating whose entry carries a finite value survives the
filter loop and is added to the animating set (given duplicate-free input
keys, as JS object keys always are). -/
lemma filterAnimKeys_keep (l : List (PKey × JVal)) (ks : List PKey)
    {k : PKey} {v : JVal} (hnd : (l.map Prod.fst).Nodup) (hk : k ∉ ks)
    (hkv : (k, v) ∈ l) (hfin : isFiniteJ v = true) :
    (k, v) ∈ (filterAnimKeys l ks).1 ∧ k ∈ (filterAnimKeys l ks).2 := by
  induction l generalizing ks with
  | nil => cases hkv
  | cons kv rest ih =>
      have hnd2 : (rest.map Prod.fst).Nodup := (List.nodup_cons.mp (by simpa using hnd)).2
      have hhead : kv.1 ∉ rest.map Prod.fst := (List.nodup_cons.mp (by simpa using hnd)).1
      rcases List.mem_cons.mp hkv with h | h
      · -- kv is the entry itself
        have hkv1 : kv.1 = k := by rw [← h]
        have hkv2 : kv.2 = v := by rw [← h]
        unfold filterAnimKeys
        split
        · rename_i hcond
          rcases hcond with hbad | hbad
          · rw [hkv2] at hbad; rw [hfin] at hbad; cases hbad
          · rw [hkv1] at hbad; exact absurd hbad hk
        · constructor
          · rw [← h]
            exact List.mem_cons_self _ _
          · exact filterAnimKeys_sup _ _ (hkv1 ▸ mem_setAdd_self ks kv.1)
      · -- the entry is further down
        have hne : kv.1 ≠ k := by
          intro heq
          exact hhead (heq ▸ (List.mem_map_of_mem Prod.fst h))
        unfold filterAnimKeys
        split
        · exact ih ks hnd2 hk h
        · have hk2 : k ∉ setAdd ks kv.1 := not_mem_setAdd hk (fun he => hne he.symm)
          obtain ⟨h1, h2⟩ := ih (setAdd ks kv.1) hnd2 hk2 h
          exact ⟨List.mem_cons_of_mem kv h1, h2⟩

/-- Keys of the admitted entries form a sublist of the input keys. -/
lemma animInitial_keys_sublist (d : PositionData) (pos : List (PKey × JVal)) :
    ((animInitial d pos).map Prod.fst).Sublist (pos.map Prod.fst) := by
  induction pos with
  | nil => simp [animInitial]
  | cons kv rest ih =>
      by_cases hc : animPairCond d kv.1 kv.2 = true
      · simp only [animInitial, List.filterMap_cons, hc, if_true, List.map_cons]
        exact List.Sublist.cons₂ kv.1 ih
      · simp only [animInitial, List.filterMap_cons, if_neg hc, List.map_cons]
        exact List.Sublist.cons kv.1 ih

lemma animInitial_mem {d : PositionData} {pos : List (PKey × JVal)}
    {k : PKey} {v : JVal} (hkv : (k, v) ∈ pos)
    (hcond : animPairCond d k v = true) :
    (k, nullNormAt k (d k)) ∈ animInitial d pos := by
  unfold animInitial
  exact List.mem_filterMap.mpr ⟨(k, v), hkv, by simp [hcond]⟩

lemma animDest_mem {d : PositionData} {pos : List (PKey × JVal)}
    {k : PKey} {v : JVal} (hkv : (k, v) ∈ pos)
    (hcond : animPairCond d k v = true) :
    (k, nullNormAt k v) ∈ animDest d pos := by
  unfold animDest
  exact List.mem_filterMap.mpr ⟨(k, v), hkv, by simp [hcond]⟩

/-- Reduction of a well-formed, positionable `animateTo` call to its
key-filtering stage. -/
lemma animateTo_run (st : PosState) (pos : List (PKey × JVal)) (dur : JVal)
    (eas : ℚ → ℚ) (itp : JVal → JVal → ℚ → JVal)
    (hdi : jsIsInteger dur = true) (hdn : jsLtZero dur = false) :
    Position.animateTo st true pos dur true true eas itp =
      (if (filterAnimKeys (animInitial st.data pos) st.animKeys).1.length = 0 then
        AnimResult.earlyNoop
      else
        AnimResult.started
          { keys := (filterAnimKeys (animInitial st.data pos) st.animKeys).1.map Prod.fst
            initial := (filterAnimKeys (animInitial st.data pos) st.animKeys).1
            destination := animDest st.data pos
            newData := toInput (filterAnimKeys (animInitial st.data pos) st.animKeys).1
            duration := finiteOr dur 0
            start := 0
            easing := eas
            interp := itp
            finished := false
            resolved := false }
          (filterAnimKeys (animInitial st.data pos) st.animKeys).2) := by
  unfold Position.animateTo
  simp [hdi, hdn]

/-- C4 (confirmed).  A field already present in the currently-animating key
set is silently dropped from any new `animateTo` task (and stays in the
set, so the in-flight animation is untouched), while a non-conflicting
field of the same call that passes the normal admission conditions (defined
canonical value, differing requested value, finite null-normalised initial
value) is animated by the new task with its requested destination. -/
theorem c4_one_animation_per_field (st : PosState) (pos : List (PKey × JVal))
    (dur : JVal) (eas : ℚ → ℚ) (itp : JVal → JVal → ℚ → JVal)
    (hdi : jsIsInteger dur = true) (hdn : jsLtZero dur = false)
    (hnd : (pos.map Prod.fst).Nodup) :
    (∀ t ks, Position.animateTo st true pos dur true true eas itp =
        AnimResult.started t ks →
      ∀ k, k ∈ st.animKeys → k ∉ t.keys ∧ k ∈ ks) ∧
    (∀ k v, k ∉ st.animKeys → (k, v) ∈ pos → st.data k ≠ JVal.undef →
      jEq v (st.data k) = false →
      isFiniteJ (nullNormAt k (st.data k)) = true →
      ∃ t ks, Position.animateTo st true pos dur true true eas itp =
          AnimResult.started t ks ∧
        k ∈ t.keys ∧ (k, nullNormAt k v) ∈ t.destination ∧ k ∈ ks) := by
  constructor
  · intro t ks heq k hk
    rw [animateTo_run st pos dur eas itp hdi hdn] at heq
    split at heq
    · cases heq
    · cases heq
      exact ⟨(filterAnimKeys_drop _ _ hk).1, (filterAnimKeys_drop _ _ hk).2⟩
  · intro k v hk hkv hdef hne hfin
    have hcond : animPairCond st.data k v = true := by
      simp only [animPairCond, Bool.and_eq_true, bne_iff_ne, ne_eq,
        Bool.not_eq_true']
      exact ⟨hdef, hne⟩
    have hmemInit := animInitial_mem hkv hcond
    have hndInit : ((animInitial st.data pos).map Prod.fst).Nodup :=
      (animInitial_keys_sublist st.data pos).nodup hnd
    obtain ⟨hsurv, hins⟩ :=
      filterAnimKeys_keep (animInitial st.data pos) st.animKeys hndInit hk
        hmemInit hfin
    have hlen : (filterAnimKeys (animInitial st.data pos) st.animKeys).1.length ≠ 0 :=
      List.length_pos.mpr (List.ne_nil_of_mem hsurv) |>.ne'
    refine ⟨⟨(filterAnimKeys (animInitial st.data pos) st.animKeys).1.map Prod.fst,
        (filterAnimKeys (animInitial st.data pos) st.animKeys).1,
        animDest st.data pos,
        toInput (filterAnimKeys (animInitial st.data pos) st.animKeys).1,
        finiteOr dur 0, 0, eas, itp, false, false⟩,
      (filterAnimKeys (animInitial st.data pos) st.animKeys).2, ?_, ?_, ?_, ?_⟩
    · rw [animateTo_run st pos dur eas itp hdi hdn]
      rw [if_neg hlen]
    · exact List.mem_map_of_mem Prod.fst hsurv
    · exact animDest_mem hkv hcond
    · exact hins

/-! ## C5: the final animation frame -/

/-- C5 (amended).  When an active task with a connected element reaches its
duration, the manager writes the exact destination values into the task's
`newData`, removes every task key from the owning store's animating key set,
runs `set` with that data, marks the task finished and resolves its promise;
the canonical value of each animated field then equals the destination
exactly whenever the destination values are fixed points of the body
normalisation (integral for the rounded fields, in `[0, 1000]` for `scale`)
— otherwise `set` rounds or clamps them first (see the counterexample). -/
theorem c5_amended_final_frame (env : SetEnv) (st : PosState) (t : AnimTask)
    (current : ℚ) (hp : env.positionable = true) (hel : env.el = none)
    (hfin : t.finished = false) (hdur : t.duration ≤ current - t.start)
    (hnd : t.keys.Nodup) (dv : PKey → JVal)
    (hdest : ∀ k ∈ t.keys, t.destination.lookup k = some (dv k))
    (hfix : ∀ k ∈ t.keys, setFixb k (dv k) = true) :
    (∀ k ∈ t.keys, (animTaskStep env true current st t).1.data k = dv k) ∧
    (∀ k ∈ t.keys, k ∉ (animTaskStep env true current st t).1.animKeys) ∧
    (animTaskStep env true current st t).2.finished = true ∧
    (animTaskStep env true current st t).2.resolved = true := by
  have hcond : ¬(true = false ∨ t.finished = true) := by
    rintro (h | h)
    · cases h
    · rw [hfin] at h; cases h
  unfold animTaskStep
  rw [if_neg hcond, if_pos hdur]
  refine ⟨?_, ?_, rfl, rfl⟩
  · intro k hk
    have hnd2 : finishData t k = dv k := by
      unfold finishData
      have h1 := foldl_update_mem t.keys
        (fun k2 => (t.destination.lookup k2).getD JVal.undef) t.newData hnd hk
      have h2 : (t.destination.lookup k).getD JVal.undef = dv k := by
        rw [hdest k hk]
        rfl
      exact h1.trans h2
    show (Position.set env _ _).st.data k = dv k
    rw [set_noEl env _ _ hp hel]
    show bodyAt k (st.data k) (finishData t k) = dv k
    rw [hnd2]
    exact bodyAt_restore (Or.inl (hfix k hk))
  · intro k hk
    show k ∉ (Position.set env _ _).st.animKeys
    rw [set_animKeys]
    exact not_mem_foldl_setDelete_of_mem t.keys st.animKeys hk

/-- Task animating `left` toward the fractional destination `0.5`. -/
def t5 : AnimTask :=
  { keys := [.left], initial := [(.left, JVal.num 0)],
    destination := [(.left, JVal.num (1/2))],
    newData := toInput [(.left, JVal.num 0)], duration := 100, start := 0,
    easing := id, interp := fun a _ _ => a, finished := false, resolved := false }

/-- C5 counterexample: the final frame passes the destination to `set`,
which rounds — with destination `left: 0.5` the canonical `left` ends at
`1`, not at the destination value `0.5`, so the final update does not write
the destination into canonical data exactly. -/
theorem c5_rounding_counterexample :
    t5.destination.lookup PKey.left = some (JVal.num (1/2)) ∧
    t5.duration ≤ (100 : ℚ) - t5.start ∧
    (animTaskStep envNoEl true 100 stInit t5).1.data PKey.left = JVal.num 1 ∧
    (animTaskStep envNoEl true 100 stInit t5).2.finished = true ∧
    JVal.num 1 ≠ JVal.num (1/2) := by
  have hdur : t5.duration ≤ (100 : ℚ) - t5.start := by
    show (100 : ℚ) ≤ 100 - 0
    norm_num
  have hcond : ¬(true = false ∨ t5.finished = true) := by
    rintro (h | h)
    · cases h
    · exact Bool.noConfusion (show false = true from h)
  have hj : jround (1/2 : ℚ) = 1 := by
    unfold jround
    norm_num
  refine ⟨rfl, hdur, ?_, ?_, ?_⟩
  · unfold animTaskStep
    rw [if_neg hcond, if_pos hdur]
    rw [set_noEl envNoEl _ _ rfl rfl]
    show bodyAt PKey.left (stInit.data PKey.left) (finishData t5 PKey.left) = JVal.num 1
    have hnd : finishData t5 PKey.left = JVal.num (1/2) := rfl
    rw [hnd]
    show jroundJ (JVal.num (1/2)) = JVal.num 1
    simp only [jroundJ, hj]
  · unfold animTaskStep
    rw [if_neg hcond, if_pos hdur]
  · simp only [ne_eq, JVal.num.injEq]
    norm_num

/-- Task animating `left` toward the integral destination `300`. -/
def t5w : AnimTask :=
  { keys := [.left], initial := [(.left, JVal.num 0)],
    destination := [(.left, JVal.num 300)],
    newData := toInput [(.left, JVal.num 0)], duration := 100, start := 0,
    easing := id, interp := fun a _ _ => a, finished := false, resolved := false }

/-- State with `left` mid-animation for the C5 witness. -/
def st5w : PosState :=
  { data := Function.update PositionData.init .left (JVal.num 0)
    changeSet := ChangeSet.all false, defaultData := none,
    animKeys := [.left], dataSaved := [] }

/-- Witness for C5 (amended) at a concrete integral destination. -/
theorem c5_amended_witness :
    t5w.finished = false ∧ t5w.duration ≤ (100 : ℚ) - t5w.start ∧
    (animTaskStep envNoEl true 100 st5w t5w).1.data PKey.left = JVal.num 300 ∧
    PKey.left ∉ (animTaskStep envNoEl true 100 st5w t5w).1.animKeys ∧
    (animTaskStep envNoEl true 100 st5w t5w).2.resolved = true := by
  have hdur : t5w.duration ≤ (100 : ℚ) - t5w.start := by
    show (100 : ℚ) ≤ 100 - 0
    norm_num
  have h := c5_amended_final_frame envNoEl st5w t5w 100 rfl rfl rfl hdur
    (by decide) (fun _ => JVal.num 300) (by decide) (by decide)
  exact ⟨rfl, hdur, h.1 PKey.left (by decide),
    h.2.1 PKey.left (by decide), h.2.2.2⟩

/-! ## C6: cancelAll -/

/-- C6 (amended).  `cancelAll` empties both the pending and active lists,
marks every task finished and resolves its promise, and clears the
currently-animating key set of every owning store — but it does not write
destination values: the canonical data of every position is untouched. -/
theorem c6_amended_cancelAll (w : AnimWorld) :
    (AnimationManager.cancelAll w).1.active = [] ∧
    (AnimationManager.cancelAll w).1.pending = [] ∧
    (∀ p ∈ (AnimationManager.cancelAll w).2,
      p.2.finished = true ∧ p.2.resolved = true) ∧
    (∀ i, ((AnimationManager.cancelAll w).1.positions i).data =
      (w.positions i).data) ∧
    (∀ p ∈ w.active ++ w.pending,
      ((AnimationManager.cancelAll w).1.positions p.1).animKeys = []) := by
  refine ⟨rfl, rfl, ?_, ?_, ?_⟩
  · intro p hp
    unfold AnimationManager.cancelAll at hp
    simp only [List.mem_map] at hp
    obtain ⟨q, hq, hpq⟩ := hp
    rw [← hpq]
    exact ⟨rfl, rfl⟩
  · intro i
    show (if i ∈ (w.active ++ w.pending).map Prod.fst
        then { w.positions i with animKeys := [] }
        else w.positions i).data = (w.positions i).data
    split <;> rfl
  · intro p hp
    show (if p.1 ∈ (w.active ++ w.pending).map Prod.fst
        then { w.positions p.1 with animKeys := [] }
        else w.positions p.1).animKeys = []
    rw [if_pos (List.mem_map_of_mem Prod.fst hp)]

/-- Task animating `left` toward `300` for the C6 counterexample. -/
def t6 : AnimTask :=
  { keys := [.left], initial := [(.left, JVal.num 0)],
    destination := [(.left, JVal.num 300)],
    newData := toInput [(.left, JVal.num 0)], duration := 1000, start := 0,
    easing := id, interp := fun a _ _ => a, finished := false, resolved := false }

/-- Owning store of `t6`, currently at `left: 0`. -/
def st6 : PosState :=
  { data := Function.update PositionData.init .left (JVal.num 0)
    changeSet := ChangeSet.all false, defaultData := none,
    animKeys := [.left], dataSaved := [] }

/-- World with one active task for the C6 counterexample. -/
def w6 : AnimWorld :=
  { positions := fun _ => st6, active := [(0, t6)], pending := [] }

/-- C6 counterexample: `cancelAll` resolves and evicts the task and clears
the animating key set, but the owning store's canonical `left` stays at `0`
— it is not forced to the task's destination `300`. -/
theorem c6_no_destination_counterexample :
    t6.destination.lookup PKey.left = some (JVal.num 300) ∧
    ((AnimationManager.cancelAll w6).1.positions 0).data PKey.left = JVal.num 0 ∧
    JVal.num 0 ≠ JVal.num 300 ∧
    (AnimationManager.cancelAll w6).1.active = [] ∧
    ((AnimationManager.cancelAll w6).1.positions 0).animKeys = [] := by
  refine ⟨by decide, by decide, by decide, rfl, by decide⟩

/-- Witness for C6 (amended) at the concrete one-task world. -/
theorem c6_amended_witness :
    ((0, settleTask t6) ∈ (AnimationManager.cancelAll w6).2) ∧
    (settleTask t6).finished = true ∧ (settleTask t6).resolved = true ∧
    ((AnimationManager.cancelAll w6).1.positions 0).animKeys = [] := by
  have hmem : (0, settleTask t6) ∈ (AnimationManager.cancelAll w6).2 :=
    List.mem_singleton.mpr rfl
  have h3 := (c6_amended_cancelAll w6).2.2.1 (0, settleTask t6) hmem
  have h5 := (c6_amended_cancelAll w6).2.2.2.2 (0, t6)
    (List.mem_append_left _ (List.mem_singleton.mpr rfl))
  exact ⟨hmem, h3.1, h3.2, h5⟩

/-! ## C7: argument validation is delivered through promise rejection -/

/-- C7 (amended).  `animateTo` is an `async` function, so its argument
validation TypeErrors (`duration` not a non-negative integer, `easing` /
`interpolate` not functions) surface as a rejection of the returned promise,
never as a synchronous throw at the call site; a well-formed call's promise
is never rejected (in the model the only settlement of a task's promise is
`resolve`). -/
theorem c7_amended_async_validation (st : PosState) (pos : List (PKey × JVal))
    (dur : JVal) (e i : Bool) (eas : ℚ → ℚ) (itp : JVal → JVal → ℚ → JVal) :
    (Position.animateTo st true pos dur e i eas itp).isSyncThrow = false ∧
    ((jsIsInteger dur = false ∨ jsLtZero dur = true) →
      Position.animateTo st true pos dur e i eas itp =
        AnimResult.promiseRejected "duration is not a positive integer") ∧
    (jsIsInteger dur = true → jsLtZero dur = false → e = false →
      Position.animateTo st true pos dur e i eas itp =
        AnimResult.promiseRejected "easing is not a function") ∧
    (jsIsInteger dur = true → jsLtZero dur = false → e = true → i = false →
      Position.animateTo st true pos dur e i eas itp =
        AnimResult.promiseRejected "interpolate is not a function") ∧
    (jsIsInteger dur = true → jsLtZero dur = false → e = true → i = true →
      (Position.animateTo st true pos dur e i eas itp).isRejected = false) := by
  refine ⟨?_, ?_, ?_, ?_, ?_⟩
  · unfold Position.animateTo
    repeat' split
    all_goals rfl
  · intro hd
    have hc : (!jsIsInteger dur || jsLtZero dur) = true := by
      rcases hd with h | h <;> simp [h]
    unfold Position.animateTo
    simp [hc]
  · intro hdi hdn he
    unfold Position.animateTo
    simp [hdi, hdn, he]
  · intro hdi hdn he hi
    unfold Position.animateTo
    simp [hdi, hdn, he, hi]
  · intro hdi hdn he hi
    by_cases h5 : (filterAnimKeys (animInitial st.data pos) st.animKeys).1.length = 0
    · simp [Position.animateTo, hdi, hdn, he, hi, h5, AnimResult.isRejected]
    · simp [Position.animateTo, hdi, hdn, he, hi, h5, AnimResult.isRejected]

/-- C7 counterexample: a negative duration produces a rejected promise, not
a synchronous throw — `animateTo` being `async`, the claim that the
TypeError is "thrown synchronously at the call site (not deferred into a
promise rejection)" fails on the code. -/
theorem c7_async_rejection_counterexample :
    (Position.animateTo stInit true [] (JVal.num (-1)) true true id
      (fun a _ _ => a)).isSyncThrow = false ∧
    (Position.animateTo stInit true [] (JVal.num (-1)) true true id
      (fun a _ _ => a)).isRejected = true := by
  constructor
  · rfl
  · rfl

/-- Witness for C7 (amended) at concrete inputs. -/
theorem c7_amended_witness :
    (jsIsInteger (JVal.num (-1)) = false ∨ jsLtZero (JVal.num (-1)) = true) ∧
    Position.animateTo stInit true [] (JVal.num (-1)) true true id
      (fun a _ _ => a) =
      AnimResult.promiseRejected "duration is not a positive integer" ∧
    (Position.animateTo stInit true [] (JVal.num 100) true true id
      (fun a _ _ => a)).isRejected = false := by
  refine ⟨Or.inr (by decide), ?_, ?_⟩
  · exact (c7_amended_async_validation stInit [] (JVal.num (-1)) true true id
      (fun a _ _ => a)).2.1 (Or.inr (by decide))
  · exact (c7_amended_async_validation stInit [] (JVal.num 100) true true id
      (fun a _ _ => a)).2.2.2.2 (by decide) (by decide) rfl rfl

/-- State with `rotateZ` mid-animation for the C4 witness. -/
def st4 : PosState :=
  { data := Function.update (Function.update PositionData.init .rotateZ
      (JVal.num 0)) .left (JVal.num 100)
    changeSet := ChangeSet.all false, defaultData := none,
    animKeys := [.rotateZ], dataSaved := [] }

/-- Call animating both the conflicting `rotateZ` and the free `left`. -/
def pos4 : List (PKey × JVal) := [(.rotateZ, JVal.num 90), (.left, JVal.num 200)]

/-- Witness for C4 at a concrete overlapping call: `rotateZ` is dropped
(and stays animating) while `left` is admitted into the new task. -/
theorem c4_one_animation_per_field_witness :
    (pos4.map Prod.fst).Nodup ∧ PKey.rotateZ ∈ st4.animKeys ∧
    (∃ t ks, Position.animateTo st4 true pos4 (JVal.num 100) true true id
        (fun a _ _ => a) = AnimResult.started t ks ∧
      PKey.rotateZ ∉ t.keys ∧ PKey.left ∈ t.keys ∧ PKey.rotateZ ∈ ks) := by
  have hthm := c4_one_animation_per_field st4 pos4 (JVal.num 100) id
    (fun a _ _ => a) (by decide) (by decide) (by decide)
  obtain ⟨t, ks, heq, hkin, hdest, hks⟩ := hthm.2 PKey.left (JVal.num 200)
    (by decide) (by decide) (by decide) (by decide) (by decide)
  have hdrop := hthm.1 t ks heq PKey.rotateZ (by decide)
  exact ⟨by decide, by decide, t, ks, heq, hdrop.1, hkin, hdrop.2⟩
